import Mathlib

/-!
Verification of the client-side server-list engine of the play-css.com
repository (a Counter-Strike: Source server browser).

The definitions below are a shallow embedding of the TypeScript source:

* `stripSpecialChars`, `matchesFilter`, `compareServers`, `processedServers`,
  `serverStats` embed the filtering/sorting pipeline of the
  `ServerBrowserClient` component (`processedServers` / `stats` memos).
* `jsSort` models ECMAScript `Array.prototype.sort` for a consistent
  comparator: a stable sort placing `x` before the first element `y`
  with `compare x y < 0`.
* `compareStr` models `String.prototype.localeCompare` as a code-point
  lexicographic comparison returning -1, 0 or 1 (the values the engine
  in question produces); `jsToLower` models `toLowerCase` via
  `Char.toLower`.
* `BrowserState`, `fetchServersStep`, `handleSort` embed the component's
  state cells and the two state transitions relevant here (the
  `fetchServers` callback with its background-refresh flag and the
  column-header sort handler).
* `formatTime` embeds the `ServerModal` connection-time formatter and
  `fetchDetailsPlayers` its player-list sort.
* `blacklistPOST` / `addPOST` embed the admin API proxy routes; the second
  component of their result lists the upstream calls performed, so that
  "no upstream fetch happens" is expressible.

JavaScript numbers are modelled as `Nat` (all counts in the data model are
non-negative integers) with subtraction results in `Int`; strings are Lean
`String`s over Unicode scalar values (a scalar above U+FFFF is outside every
allow-list range, exactly as its two UTF-16 surrogate code units are in the
source regex, so the character-set logic coincides).
-/

/-- One discovered game server, as in the `Server` interface of the
server-browser client (`players`, `max_players`, `bots` are non-negative
counts; `port` is a string there). -/
structure Server where
  name : String
  map : String
  players : Nat
  max_players : Nat
  bots : Nat
  ip : String
  port : String
  country : String
deriving DecidableEq

/-- The status filter values. The source's string `'partial'` is spelled
`hasPlayers` here because `partial` is a Lean keyword (its UI label in the
source is "Has Players"). -/
inductive ServerStatus where
  | all : ServerStatus
  | empty : ServerStatus
  | full : ServerStatus
  | hasPlayers : ServerStatus
deriving DecidableEq

/-- The sortable columns (`sortField` values in the source). -/
inductive SortField where
  | name : SortField
  | map : SortField
  | players : SortField
  | ip : SortField
  | country : SortField
deriving DecidableEq

/-- Sort direction. -/
inductive SortDirection where
  | asc : SortDirection
  | desc : SortDirection
deriving DecidableEq

/-- The `Filters` interface of the client. -/
structure Filters where
  status : ServerStatus
  noBots : Bool
  mapFilter : String
  nameFilter : String
  ipFilter : String
  stripSpecialChars : Bool
deriving DecidableEq

/-- A character the allow-list regex keeps: printable ASCII 0x20-0x7E,
Cyrillic U+0400-U+04FF, CJK unified ideographs U+4E00-U+9FFF, Hiragana
U+3040-U+309F, Katakana U+30A0-U+30FF, Hangul syllables U+AC00-U+D7AF. -/
def isAllowedChar (c : Char) : Bool :=
  (decide (0x20 ≤ c.toNat) && decide (c.toNat ≤ 0x7E)) ||
  (decide (0x400 ≤ c.toNat) && decide (c.toNat ≤ 0x4FF)) ||
  (decide (0x4E00 ≤ c.toNat) && decide (c.toNat ≤ 0x9FFF)) ||
  (decide (0x3040 ≤ c.toNat) && decide (c.toNat ≤ 0x309F)) ||
  (decide (0x30A0 ≤ c.toNat) && decide (c.toNat ≤ 0x30FF)) ||
  (decide (0xAC00 ≤ c.toNat) && decide (c.toNat ≤ 0xD7AF))

/-- The scan performed by `str.replace(/[^...]/g, '')`: each character not in
the allow-set is replaced by the empty string, i.e. dropped. -/
def replaceDisallowed : List Char → List Char
  | [] => []
  | c :: cs => if isAllowedChar c then c :: replaceDisallowed cs else replaceDisallowed cs

/-- `stripSpecialChars` from the server-browser client. -/
def stripSpecialChars (s : String) : String :=
  String.mk (replaceDisallowed s.data)

/-- Model of `String.prototype.toLowerCase`. -/
def jsToLower (s : String) : String :=
  String.mk (s.data.map Char.toLower)

/-- Does `hay` start with `needle`? (Helper for the `includes` model.) -/
def strStartsWith : List Char → List Char → Bool
  | _, [] => true
  | [], _ :: _ => false
  | h :: hs, n :: ns => h == n && strStartsWith hs ns

/-- Model of `String.prototype.includes`: some suffix of `hay` starts with
`needle` (the empty needle is always contained). -/
def strIncludes : List Char → List Char → Bool
  | [], needle => strStartsWith [] needle
  | h :: t, needle => strStartsWith (h :: t) needle || strIncludes t needle

/-- The filter predicate of the `processedServers` memo: the status block
(three early `return false` checks guarded by `status !== 'all'`) followed by
the negated disjunction of the bot, map, name and ip exclusions. -/
def matchesFilter (f : Filters) (s : Server) : Bool :=
  let nm := if f.stripSpecialChars then stripSpecialChars s.name else s.name
  let mp := if f.stripSpecialChars then stripSpecialChars s.map else s.map
  if f.status != ServerStatus.all &&
      ((f.status == ServerStatus.empty && decide (0 < s.players)) ||
       (f.status == ServerStatus.full && decide (s.players < s.max_players)) ||
       (f.status == ServerStatus.hasPlayers &&
         (decide (s.players = 0) || decide (s.players = s.max_players))))
  then false
  else
    !((f.noBots && decide (0 < s.bots)) ||
      (f.mapFilter != "" &&
        !(strIncludes (jsToLower mp).data (jsToLower f.mapFilter).data)) ||
      (f.nameFilter != "" &&
        !(strIncludes (jsToLower nm).data (jsToLower f.nameFilter).data)) ||
      (f.ipFilter != "" && !(strIncludes s.ip.data f.ipFilter.data)))

/-- Code-point lexicographic comparison, the model of `localeCompare`. -/
def compareStr : List Char → List Char → Int
  | [], [] => 0
  | [], _ :: _ => -1
  | _ :: _, [] => 1
  | a :: as, b :: bs => if a < b then -1 else if b < a then 1 else compareStr as bs

/-- A sort key as produced by `getValue`: a string for `name`, `map`, `ip`,
`country`, a number for `players`. -/
inductive SKey where
  | str : List Char → SKey
  | num : Int → SKey
deriving DecidableEq

/-- Comparison of two sort keys: `localeCompare` for strings, subtraction for
numbers (the `typeof valueA === 'string'` dispatch of the comparator). -/
def skeyCompare : SKey → SKey → Int
  | SKey.str u, SKey.str v => compareStr u v
  | SKey.num x, SKey.num y => x - y
  | _, _ => 0

/-- `getValue(server, field)` from the comparator: country falls back to the
empty string via `server.country || ''`, which on strings is the identity. -/
def sortValue (strip : Bool) (sf : SortField) (s : Server) : SKey :=
  match sf with
  | SortField.name => SKey.str (if strip then stripSpecialChars s.name else s.name).data
  | SortField.map => SKey.str (if strip then stripSpecialChars s.map else s.map).data
  | SortField.players => SKey.num s.players
  | SortField.ip => SKey.str s.ip.data
  | SortField.country => SKey.str s.country.data

/-- The direction multiplier: +1 for ascending, -1 for descending. -/
def dirMult : SortDirection → Int
  | SortDirection.asc => 1
  | SortDirection.desc => -1

/-- The sort comparator of `processedServers`:
`multiplier * (string ? a.localeCompare(b) : a - b)` on the field values. -/
def compareServers (strip : Bool) (sf : SortField) (sd : SortDirection) (a b : Server) : Int :=
  dirMult sd * skeyCompare (sortValue strip sf a) (sortValue strip sf b)

/-- Insert `x` into `l` immediately before the first element `y` with
`c x y < 0`. -/
def insertSorted (c : α → α → Int) (x : α) : List α → List α
  | [] => [x]
  | y :: ys => if c x y < 0 then x :: y :: ys else y :: insertSorted c x ys

/-- Model of ECMAScript `Array.prototype.sort` for a consistent comparator
`c`: a stable sort (later elements are inserted after every element they do
not strictly precede). -/
def jsSort (c : α → α → Int) (l : List α) : List α :=
  l.foldl (fun acc x => insertSorted c x acc) []

/-- The derived list: filter, copy, sort — the `processedServers` memo. -/
def processedServers (servers : List Server) (f : Filters) (sf : SortField)
    (sd : SortDirection) : List Server :=
  jsSort (compareServers f.stripSpecialChars sf sd) (servers.filter (matchesFilter f))

/-- The `stats` memo: `(totalPlayers, totalServers)` computed from the
derived list by a reduce and a length. -/
def serverStats (l : List Server) : Nat × Nat :=
  (l.foldl (fun sum s => sum + s.players) 0, l.length)

/-- The state cells of the server-browser component that the engine
transitions touch. -/
structure BrowserState where
  servers : List Server
  loading : Bool
  error : Option String
  isInitialLoad : Bool
  isRefreshing : Bool
  sortField : SortField
  sortDirection : SortDirection
  filters : Filters
deriving DecidableEq

/-- One complete run of the `fetchServers` callback. `outcome` is the result
of `fetch`/`json()` (`Except.error` when it throws or the response is not
ok). The `catch` branch sets `error` only when this is not a background
refresh or the closed-over server list is empty; the `finally` branch resets
the relevant spinner flag. -/
def fetchServersStep (isBackgroundRefresh : Bool) (outcome : Except String (List Server))
    (st : BrowserState) : BrowserState :=
  let st1 := if isBackgroundRefresh then { st with isRefreshing := true }
             else { st with loading := true }
  let st2 := match outcome with
    | Except.ok data => { st1 with servers := data, error := none }
    | Except.error msg =>
      if !isBackgroundRefresh || st.servers.length == 0
      then { st1 with error := some msg }
      else st1
  if isBackgroundRefresh then { st2 with isRefreshing := false }
  else { st2 with loading := false, isInitialLoad := false }

/-- The `handleSort` callback: select the field; toggle the direction when
the previous field is reselected, otherwise reset it to ascending. -/
def handleSort (field : SortField) (st : BrowserState) : BrowserState :=
  { st with
      sortField := field,
      sortDirection :=
        if st.sortField == field then
          (if st.sortDirection == SortDirection.asc then SortDirection.desc
           else SortDirection.asc)
        else SortDirection.asc }

/-- A player row of the server-detail modal (`connection_time` in
nanoseconds). -/
structure Player where
  id : Nat
  name : String
  score : Int
  connection_time : Nat
deriving DecidableEq

/-- The `ServerModal` comparator: `(a, b) => b.connection_time - a.connection_time`. -/
def comparePlayersByTime (a b : Player) : Int :=
  (b.connection_time : Int) - (a.connection_time : Int)

/-- The player list stored by a successful `fetchDetails`: the fetched array
sorted with the descending connection-time comparator. -/
def fetchDetailsPlayers (data : List Player) : List Player :=
  jsSort comparePlayersByTime data

/-- `formatTime` from the `ServerModal`: nanoseconds to `"{h}h {m}m"` or
`"{m}m"`. -/
def formatTime (nanoseconds : Nat) : String :=
  let seconds := nanoseconds / 1000000000
  let hours := seconds / 3600
  let minutes := (seconds % 3600) / 60
  if hours > 0 then toString hours ++ "h " ++ toString minutes ++ "m"
  else toString minutes ++ "m"

/-- The inputs of an admin proxy route: the `authorization` header and the
form fields (absent fields are `none`). -/
structure AdminRequest where
  authorization : Option String
  address : Option String
  reason : Option String
deriving DecidableEq

/-- What the upstream `fetch` produced: a thrown network error, or a response
with a status and a JSON body (`none` when `response.json()` throws). -/
inductive UpstreamOutcome where
  | netError : UpstreamOutcome
  | resp : Nat → Option String → UpstreamOutcome
deriving DecidableEq

/-- A route response body: `NextResponse.json(obj with an error field)` or a
passed-through upstream payload. -/
inductive RouteBody where
  | errorJson : String → RouteBody
  | dataJson : String → RouteBody
deriving DecidableEq

/-- A route response: HTTP status plus body. -/
structure RouteResponse where
  status : Nat
  body : RouteBody
deriving DecidableEq

/-- JS falsiness of a nullable string: `null` and `''` are falsy. -/
def jsFalsyStr : Option String → Bool
  | none => true
  | some s => s == ""

/-- The reason forwarded by the blacklist route: `reason || 'none'`. -/
def reasonOrNone : Option String → String
  | none => "none"
  | some r => if r == "" then "none" else r

/-- `POST /api/admin/blacklist`. The second component lists the upstream
calls performed, as `(address, reason)` pairs. -/
def blacklistPOST (req : AdminRequest) (upstream : UpstreamOutcome) :
    RouteResponse × List (String × String) :=
  match req.authorization with
  | none => (⟨401, RouteBody.errorJson "Authorization required"⟩, [])
  | some _ =>
    if jsFalsyStr req.address then (⟨400, RouteBody.errorJson "Address is required"⟩, [])
    else
      let call := (req.address.getD "", reasonOrNone req.reason)
      match upstream with
      | UpstreamOutcome.netError =>
        (⟨500, RouteBody.errorJson "Failed to blacklist server"⟩, [call])
      | UpstreamOutcome.resp status body =>
        if decide (200 ≤ status) && decide (status ≤ 299) then
          match body with
          | some d => (⟨200, RouteBody.dataJson d⟩, [call])
          | none => (⟨500, RouteBody.errorJson "Failed to blacklist server"⟩, [call])
        else if status == 401 then
          (⟨401, RouteBody.errorJson "Invalid credentials"⟩, [call])
        else
          (⟨status, match body with
                    | some d => RouteBody.dataJson d
                    | none => RouteBody.errorJson "Failed to blacklist server"⟩, [call])

/-- `POST /api/admin/add`. The second component lists the upstream calls
performed (the forwarded addresses). -/
def addPOST (req : AdminRequest) (upstream : UpstreamOutcome) :
    RouteResponse × List String :=
  match req.authorization with
  | none => (⟨401, RouteBody.errorJson "Authorization required"⟩, [])
  | some _ =>
    if jsFalsyStr req.address then (⟨400, RouteBody.errorJson "Address is required"⟩, [])
    else
      let call := req.address.getD ""
      match upstream with
      | UpstreamOutcome.netError =>
        (⟨500, RouteBody.errorJson "Failed to add server"⟩, [call])
      | UpstreamOutcome.resp status body =>
        if decide (200 ≤ status) && decide (status ≤ 299) then
          match body with
          | some d => (⟨200, RouteBody.dataJson d⟩, [call])
          | none => (⟨500, RouteBody.errorJson "Failed to add server"⟩, [call])
        else if status == 401 then
          (⟨401, RouteBody.errorJson "Invalid credentials"⟩, [call])
        else
          (⟨status, match body with
                    | some d => RouteBody.dataJson d
                    | none => RouteBody.errorJson "Failed to add server"⟩, [call])

/-- The initial `filters` state of the component. -/
def defaultFilters : Filters :=
  { status := ServerStatus.all, noBots := false, mapFilter := "", nameFilter := "",
    ipFilter := "", stripSpecialChars := true }

/-- A filter configuration whose only active constraint is the `'partial'`
status. -/
def partialOnlyFilters : Filters :=
  { status := ServerStatus.hasPlayers, noBots := false, mapFilter := "", nameFilter := "",
    ipFilter := "", stripSpecialChars := true }

/-- A server with 10 of 12 player slots used. -/
def srvTen : Server :=
  { name := "Alpha", map := "de_dust2", players := 10, max_players := 12, bots := 0,
    ip := "10.0.0.1", port := "27015", country := "CH" }

/-- A server with 5 of 12 player slots used. -/
def srvFive : Server :=
  { name := "Beta", map := "de_nuke", players := 5, max_players := 12, bots := 0,
    ip := "10.0.0.2", port := "27015", country := "DE" }

/-- A different server that also has 5 players. -/
def srvFiveB : Server :=
  { name := "Gamma", map := "cs_office", players := 5, max_players := 20, bots := 2,
    ip := "10.0.0.3", port := "27015", country := "FR" }

/-- A server reporting more players than its capacity. -/
def srvOverCapacity : Server :=
  { name := "Packed", map := "de_dust2", players := 11, max_players := 10, bots := 0,
    ip := "10.0.0.9", port := "27015", country := "US" }

/-- A raw snapshot of three servers. -/
def threeServers : List Server := [srvTen, srvFive, srvFiveB]

/-- A state in which a list of three servers is already displayed and no
error or spinner is active. -/
def steadyState : BrowserState :=
  { servers := threeServers, loading := false, error := none, isInitialLoad := false,
    isRefreshing := false, sortField := SortField.players,
    sortDirection := SortDirection.desc, filters := defaultFilters }

theorem compareStr_self : ∀ u : List Char, compareStr u u = 0
  | [] => rfl
  | a :: as => by simp [compareStr, lt_irrefl, compareStr_self as]

theorem compareStr_antisym : ∀ u v : List Char, compareStr v u = -(compareStr u v)
  | [], [] => rfl
  | [], _ :: _ => rfl
  | _ :: _, [] => rfl
  | a :: as, b :: bs => by
    by_cases h1 : a < b
    · have h2 : ¬ b < a := lt_asymm h1
      simp [compareStr, h1, h2]
    · by_cases h2 : b < a
      · simp [compareStr, h1, h2]
      · simp [compareStr, h1, h2, compareStr_antisym as bs]

theorem compareStr_lt_trans :
    ∀ u v w : List Char, compareStr u v < 0 → compareStr v w < 0 → compareStr u w < 0
  | [], [], _, h1, _ => by simp [compareStr] at h1
  | [], _ :: _, [], _, h2 => by simp [compareStr] at h2
  | [], _ :: _, _ :: _, _, _ => by simp [compareStr]
  | _ :: _, [], _, h1, _ => by simp [compareStr] at h1
  | _ :: _, _ :: _, [], _, h2 => by simp [compareStr] at h2
  | a :: as, b :: bs, d :: ds, h1, h2 => by
    by_cases hab : a < b
    · by_cases hbd : b < d
      · simp [compareStr, lt_trans hab hbd]
      · by_cases hdb : d < b
        · simp [compareStr, hbd, hdb] at h2
        · have hbd' : b = d := le_antisymm (not_lt.mp hdb) (not_lt.mp hbd)
          subst hbd'
          simp [compareStr, hab]
    · by_cases hba : b < a
      · simp [compareStr, hab, hba] at h1
      · have hab' : a = b := le_antisymm (not_lt.mp hba) (not_lt.mp hab)
        subst hab'
        by_cases had : a < d
        · simp [compareStr, had]
        · by_cases hda : d < a
          · simp [compareStr, had, hda] at h2
          · have had' : a = d := le_antisymm (not_lt.mp hda) (not_lt.mp had)
            subst had'
            simp only [compareStr, lt_irrefl, if_false] at h1 h2 ⊢
            exact compareStr_lt_trans as bs ds h1 h2

theorem skeyCompare_self (u : SKey) : skeyCompare u u = 0 := by
  cases u with
  | str l => simp [skeyCompare, compareStr_self]
  | num x => simp [skeyCompare]

theorem skeyCompare_antisym (u v : SKey) : skeyCompare v u = -(skeyCompare u v) := by
  cases u with
  | str a =>
    cases v with
    | str b => exact compareStr_antisym a b
    | num y => simp [skeyCompare]
  | num x =>
    cases v with
    | str b => simp [skeyCompare]
    | num y => simp only [skeyCompare]; omega

theorem skeyCompare_lt_trans (u v w : SKey) :
    skeyCompare u v < 0 → skeyCompare v w < 0 → skeyCompare u w < 0 := by
  cases u <;> cases v <;> cases w <;> simp only [skeyCompare] <;> intro h1 h2 <;>
    first
      | exact compareStr_lt_trans _ _ _ h1 h2
      | omega

theorem insertSorted_mem {α : Type} (c : α → α → Int) (x : α) (l : List α) (w : α) :
    w ∈ insertSorted c x l ↔ w = x ∨ w ∈ l := by
  induction l with
  | nil => simp [insertSorted]
  | cons y ys ih =>
    by_cases h : c x y < 0
    · simp only [insertSorted, if_pos h, List.mem_cons]
    · simp only [insertSorted, if_neg h, List.mem_cons, ih]
      tauto

theorem insertSorted_pairwise {α : Type} (c : α → α → Int)
    (hneg : ∀ a b, c b a = -(c a b))
    (htrans : ∀ a b d, c a b < 0 → c b d < 0 → c a d < 0)
    (x : α) (l : List α)
    (hl : l.Pairwise (fun y z => 0 ≤ c z y)) :
    (insertSorted c x l).Pairwise (fun y z => 0 ≤ c z y) := by
  induction l with
  | nil => simp [insertSorted]
  | cons y ys ih =>
    rw [List.pairwise_cons] at hl
    obtain ⟨hy, hys⟩ := hl
    by_cases h : c x y < 0
    · simp only [insertSorted, if_pos h]
      rw [List.pairwise_cons]
      refine ⟨?_, List.pairwise_cons.mpr ⟨hy, hys⟩⟩
      intro z hz
      rcases List.mem_cons.mp hz with rfl | hz'
      · have := hneg x z
        omega
      · by_contra hc
        have hzx : c z x < 0 := by omega
        have := htrans z x y hzx h
        have := hy z hz'
        omega
    · simp only [insertSorted, if_neg h]
      rw [List.pairwise_cons]
      refine ⟨?_, ih hys⟩
      intro z hz
      rcases (insertSorted_mem c x ys z).mp hz with rfl | hz'
      · omega
      · exact hy z hz'

theorem insertSorted_filter_key {α κ : Type} [DecidableEq κ] (k : α → κ) (g : κ → κ → Int)
    (g0 : ∀ u, g u u = 0) (x : α) (l : List α) (v : κ)
    (hl : l.Pairwise (fun y z => 0 ≤ g (k z) (k y))) :
    (insertSorted (fun a b => g (k a) (k b)) x l).filter (fun y => decide (k y = v)) =
      if k x = v then l.filter (fun y => decide (k y = v)) ++ [x]
      else l.filter (fun y => decide (k y = v)) := by
  induction l with
  | nil =>
    by_cases hx : k x = v <;> simp [insertSorted, List.filter_cons, hx]
  | cons y ys ih =>
    rw [List.pairwise_cons] at hl
    obtain ⟨hy, hys⟩ := hl
    by_cases h : g (k x) (k y) < 0
    · simp only [insertSorted, if_pos h]
      by_cases hx : k x = v
      · have hnil : (y :: ys).filter (fun w => decide (k w = v)) = [] := by
          rw [List.filter_eq_nil_iff]
          intro a ha
          simp only [decide_eq_true_eq]
          intro hav
          rcases List.mem_cons.mp ha with rfl | ha'
          · rw [hx, hav] at h
            rw [g0] at h
            exact absurd h (lt_irrefl 0)
          · have h1 := hy a ha'
            rw [hav, ← hx] at h1
            omega
        rw [if_pos hx, List.filter_cons, if_pos (by simp [hx]), hnil]
        simp
      · rw [if_neg hx, List.filter_cons, if_neg (by simp [hx])]
    · simp only [insertSorted, if_neg h]
      rw [List.filter_cons, ih hys]
      by_cases hx : k x = v <;> by_cases hyv : k y = v <;>
        simp [hx, hyv, List.filter_cons]

theorem foldl_insertSorted_pairwise {α : Type} (c : α → α → Int)
    (hneg : ∀ a b, c b a = -(c a b))
    (htrans : ∀ a b d, c a b < 0 → c b d < 0 → c a d < 0) :
    ∀ (l acc : List α), acc.Pairwise (fun y z => 0 ≤ c z y) →
      (l.foldl (fun acc x => insertSorted c x acc) acc).Pairwise (fun y z => 0 ≤ c z y) := by
  intro l
  induction l with
  | nil => intro acc hacc; exact hacc
  | cons x l ih =>
    intro acc hacc
    simp only [List.foldl_cons]
    exact ih _ (insertSorted_pairwise c hneg htrans x acc hacc)

theorem jsSort_pairwise {α : Type} (c : α → α → Int)
    (hneg : ∀ a b, c b a = -(c a b))
    (htrans : ∀ a b d, c a b < 0 → c b d < 0 → c a d < 0)
    (l : List α) :
    (jsSort c l).Pairwise (fun y z => 0 ≤ c z y) :=
  foldl_insertSorted_pairwise c hneg htrans l [] List.Pairwise.nil

theorem foldl_insertSorted_filter_key {α κ : Type} [DecidableEq κ] (k : α → κ)
    (g : κ → κ → Int)
    (g0 : ∀ u, g u u = 0)
    (gneg : ∀ u w, g w u = -(g u w))
    (gtrans : ∀ u w z, g u w < 0 → g w z < 0 → g u z < 0)
    (v : κ) :
    ∀ (l acc : List α), acc.Pairwise (fun y z => 0 ≤ g (k z) (k y)) →
      (l.foldl (fun acc x => insertSorted (fun a b => g (k a) (k b)) x acc) acc).filter
          (fun y => decide (k y = v)) =
        acc.filter (fun y => decide (k y = v)) ++ l.filter (fun y => decide (k y = v)) := by
  intro l
  induction l with
  | nil => intro acc hacc; simp
  | cons x l ih =>
    intro acc hacc
    have hc : (insertSorted (fun a b => g (k a) (k b)) x acc).Pairwise
        (fun y z => 0 ≤ g (k z) (k y)) :=
      insertSorted_pairwise (fun a b => g (k a) (k b))
        (fun a b => gneg (k a) (k b))
        (fun a b d h1 h2 => gtrans (k a) (k b) (k d) h1 h2)
        x acc hacc
    simp only [List.foldl_cons]
    rw [ih _ hc, insertSorted_filter_key k g g0 x acc v hacc]
    by_cases hx : k x = v
    · rw [if_pos hx, List.filter_cons, if_pos (by simp [hx])]
      simp
    · rw [if_neg hx, List.filter_cons, if_neg (by simp [hx])]

theorem jsSort_filter_key {α κ : Type} [DecidableEq κ] (k : α → κ) (g : κ → κ → Int)
    (g0 : ∀ u, g u u = 0)
    (gneg : ∀ u w, g w u = -(g u w))
    (gtrans : ∀ u w z, g u w < 0 → g w z < 0 → g u z < 0)
    (v : κ) (l : List α) :
    (jsSort (fun a b => g (k a) (k b)) l).filter (fun y => decide (k y = v)) =
      l.filter (fun y => decide (k y = v)) := by
  have h := foldl_insertSorted_filter_key k g g0 gneg gtrans v l [] List.Pairwise.nil
  simpa [jsSort] using h

theorem insertSorted_perm {α : Type} (c : α → α → Int) (x : α) (l : List α) :
    (insertSorted c x l).Perm (x :: l) := by
  induction l with
  | nil => exact List.Perm.refl _
  | cons y ys ih =>
    by_cases h : c x y < 0
    · simp [insertSorted, h]
    · simp only [insertSorted, if_neg h]
      exact (ih.cons y).trans (List.Perm.swap x y ys)

theorem foldl_insertSorted_perm {α : Type} (c : α → α → Int) :
    ∀ (l acc : List α),
      (l.foldl (fun acc x => insertSorted c x acc) acc).Perm (acc ++ l) := by
  intro l
  induction l with
  | nil => intro acc; simp
  | cons x l ih =>
    intro acc
    simp only [List.foldl_cons]
    have h1 : (insertSorted c x acc ++ l).Perm ((x :: acc) ++ l) :=
      List.Perm.append_right l (insertSorted_perm c x acc)
    have h2 : ((x :: acc) ++ l).Perm (acc ++ x :: l) := List.perm_middle.symm
    exact ((ih (insertSorted c x acc)).trans h1).trans h2

theorem jsSort_perm {α : Type} (c : α → α → Int) (l : List α) :
    (jsSort c l).Perm l := by
  have h := foldl_insertSorted_perm c l []
  simpa [jsSort] using h

theorem replaceDisallowed_eq_filter (l : List Char) :
    replaceDisallowed l = l.filter isAllowedChar := by
  induction l with
  | nil => rfl
  | cons c cs ih =>
    by_cases h : isAllowedChar c <;> simp [replaceDisallowed, List.filter_cons, h, ih]

/-- C5: for every input string, `stripSpecialChars` returns exactly the
subsequence of its characters that lie in the allow-set (printable ASCII,
Cyrillic, CJK ideographs, Hiragana, Katakana, Hangul), order preserved; it is
a total Lean function, so it never fails. -/
theorem stripSpecialChars_spec (s : String) :
    stripSpecialChars s = String.mk (s.data.filter isAllowedChar) ∧
    (stripSpecialChars s).data.Sublist s.data := by
  have h := replaceDisallowed_eq_filter s.data
  refine ⟨?_, ?_⟩
  · unfold stripSpecialChars
    rw [h]
  · show (replaceDisallowed s.data).Sublist s.data
    rw [h]
    exact List.filter_sublist s.data

/-- C8: for every non-negative nanosecond count `n`, `formatTime` returns
the string `"{h}h {m}m"` when `h > 0` and `"{m}m"` otherwise, with
`s = floor(n / 1e9)`, `h = floor(s / 3600)`, `m = floor((s mod 3600) / 60)`
(floors are `Nat` division). -/
theorem formatTime_spec (n : Nat) :
    formatTime n =
      (if 0 < n / 1000000000 / 3600 then
        toString (n / 1000000000 / 3600) ++ "h " ++
          toString (n / 1000000000 % 3600 / 60) ++ "m"
      else toString (n / 1000000000 % 3600 / 60) ++ "m") := rfl

/-- C7: `handleSort f` sets the sort field to `f`; it toggles the direction
when `f` is the previously selected field and resets it to ascending
otherwise; and it leaves every other state cell (filters, raw server list,
loading, error, initial-load and refreshing flags) unchanged. -/
theorem handleSort_spec (st : BrowserState) (f : SortField) :
    (handleSort f st).sortField = f ∧
    (handleSort f st).sortDirection =
      (if st.sortField = f then
        (if st.sortDirection = SortDirection.asc then SortDirection.desc
         else SortDirection.asc)
       else SortDirection.asc) ∧
    (handleSort f st).filters = st.filters ∧
    (handleSort f st).servers = st.servers ∧
    (handleSort f st).loading = st.loading ∧
    (handleSort f st).error = st.error ∧
    (handleSort f st).isInitialLoad = st.isInitialLoad ∧
    (handleSort f st).isRefreshing = st.isRefreshing := by
  refine ⟨rfl, ?_, rfl, rfl, rfl, rfl, rfl, rfl⟩
  by_cases h : st.sortField = f
  · by_cases h2 : st.sortDirection = SortDirection.asc <;> simp [handleSort, h, h2]
  · simp [handleSort, h]

/-- C9: a POST to either admin proxy route with no `authorization` header is
answered with status 401 and body `{"error": "Authorization required"}`, and
no upstream call is performed. -/
theorem adminRoutes_auth_required (req : AdminRequest) (up : UpstreamOutcome)
    (h : req.authorization = none) :
    blacklistPOST req up = (⟨401, RouteBody.errorJson "Authorization required"⟩, []) ∧
    addPOST req up = (⟨401, RouteBody.errorJson "Authorization required"⟩, []) := by
  rcases req with ⟨auth, addr, rsn⟩
  obtain rfl : auth = none := h
  exact ⟨rfl, rfl⟩

/-- Witness for C9 at a concrete request: no authorization header, a valid
address, a network-failing upstream. -/
theorem adminRoutes_auth_required_witness :
    blacklistPOST ⟨none, some "1.2.3.4:27015", some "suspicious_players"⟩
        UpstreamOutcome.netError =
      (⟨401, RouteBody.errorJson "Authorization required"⟩, []) ∧
    addPOST ⟨none, some "1.2.3.4:27015", some "suspicious_players"⟩
        UpstreamOutcome.netError =
      (⟨401, RouteBody.errorJson "Authorization required"⟩, []) :=
  adminRoutes_auth_required _ _ rfl

/-- C3: the derived list and its stats are a pure function of the raw
snapshot, the filter configuration and the sort configuration — two
evaluations on equal inputs produce identical outputs. -/
theorem processedServers_deterministic (l1 l2 : List Server) (f1 f2 : Filters)
    (sf1 sf2 : SortField) (sd1 sd2 : SortDirection)
    (hl : l1 = l2) (hf : f1 = f2) (hsf : sf1 = sf2) (hsd : sd1 = sd2) :
    processedServers l1 f1 sf1 sd1 = processedServers l2 f2 sf2 sd2 ∧
    serverStats (processedServers l1 f1 sf1 sd1) =
      serverStats (processedServers l2 f2 sf2 sd2) := by
  subst hl
  subst hf
  subst hsf
  subst hsd
  exact ⟨rfl, rfl⟩

/-- Witness for C3 at a concrete snapshot and configuration. -/
theorem processedServers_deterministic_witness :
    processedServers threeServers defaultFilters SortField.players SortDirection.desc =
      processedServers threeServers defaultFilters SortField.players SortDirection.desc ∧
    serverStats
        (processedServers threeServers defaultFilters SortField.players SortDirection.desc) =
      serverStats
        (processedServers threeServers defaultFilters SortField.players SortDirection.desc) :=
  processedServers_deterministic _ _ _ _ _ _ _ _ rfl rfl rfl rfl

/-- Counterexample to C1: a server reporting 11 players on a capacity of 10
is accepted by the filter under status `'partial'` (all other filters
inactive), although `players > 0 AND players < maxPlayers` does not hold —
the code only excludes `players == 0` and `players == maxPlayers`. -/
theorem matchesFilter_partial_counterexample :
    matchesFilter partialOnlyFilters srvOverCapacity = true ∧
    ¬(0 < srvOverCapacity.players ∧
        srvOverCapacity.players < srvOverCapacity.max_players) := by
  constructor
  · decide
  · decide

/-- C1 (amended): under status `'partial'` the filter accepts a record iff
`players ≠ 0` and `players ≠ maxPlayers` and the remaining (non-status)
filters accept it; a record with `players > maxPlayers` is therefore
accepted, not excluded. -/
theorem matchesFilter_partial (f : Filters) (s : Server)
    (h : f.status = ServerStatus.hasPlayers) :
    (matchesFilter f s = true) ↔
      ((s.players ≠ 0 ∧ s.players ≠ s.max_players) ∧
        matchesFilter { f with status := ServerStatus.all } s = true) := by
  rcases f with ⟨st, nb, mf, nf, ipf, sp⟩
  obtain rfl : st = ServerStatus.hasPlayers := h
  by_cases h0 : s.players = 0 <;> by_cases hm : s.players = s.max_players <;>
    simp [matchesFilter, h0, hm]

/-- Witness for the amended C1 at a concrete half-occupied server. -/
theorem matchesFilter_partial_witness :
    (matchesFilter partialOnlyFilters srvFive = true) ↔
      ((srvFive.players ≠ 0 ∧ srvFive.players ≠ srvFive.max_players) ∧
        matchesFilter { partialOnlyFilters with status := ServerStatus.all } srvFive
          = true) :=
  matchesFilter_partial partialOnlyFilters srvFive rfl

/-- Counterexample to C2: when a background refresh fails while three
servers are displayed and no error is set, the resulting state is exactly
the prior state — in particular `error` is still `none`, so the failure is
not recorded in any error/stale indicator, contrary to the claim. -/
theorem fetchServers_background_failure_counterexample :
    fetchServersStep true (Except.error "Failed to fetch servers") steadyState
        = steadyState ∧
    (fetchServersStep true (Except.error "Failed to fetch servers") steadyState).error
        = none := by
  constructor
  · decide
  · decide

/-- C2 (amended): if a background refresh fetch fails while the prior list
is non-empty, the displayed raw list remains the prior list and no blocking
error is raised; however the failure is not recorded anywhere — the final
state equals the prior state with `isRefreshing` reset to `false` (so
`error` is unchanged and no stale indicator survives the refresh). -/
theorem fetchServers_background_failure (st : BrowserState) (msg : String)
    (h : st.servers ≠ []) :
    fetchServersStep true (Except.error msg) st = { st with isRefreshing := false } := by
  have hlen : (st.servers.length == 0) = false := by
    have : st.servers.length ≠ 0 := by
      simpa [List.length_eq_zero] using h
    simp [this]
  simp [fetchServersStep, hlen]

/-- Witness for the amended C2 at the concrete three-server state. -/
theorem fetchServers_background_failure_witness :
    fetchServersStep true (Except.error "Failed to fetch servers") steadyState =
      { steadyState with isRefreshing := false } :=
  fetchServers_background_failure steadyState "Failed to fetch servers" (by decide)

/-- Counterexample to C6: for the `players` field the comparator returns
the raw difference of player counts — here `10 - 5 = 5`, which is not in
`{-1, 0, 1}`. -/
theorem compareServers_counterexample :
    compareServers true SortField.players SortDirection.asc srvTen srvFive = 5 ∧
    ¬(compareServers true SortField.players SortDirection.asc srvTen srvFive = -1 ∨
      compareServers true SortField.players SortDirection.asc srvTen srvFive = 0 ∨
      compareServers true SortField.players SortDirection.asc srvTen srvFive = 1) := by
  constructor
  · decide
  · decide

/-- C6 (amended): the comparator returns an integer that is not confined to
`{-1, 0, 1}`; only its sign is meaningful: swapping the arguments negates
the result, and records with equal sort keys compare to 0. -/
theorem compareServers_sign (strip : Bool) (sf : SortField) (sd : SortDirection)
    (a b : Server) :
    compareServers strip sf sd b a = -(compareServers strip sf sd a b) ∧
    (sortValue strip sf a = sortValue strip sf b →
      compareServers strip sf sd a b = 0) := by
  constructor
  · unfold compareServers
    rw [skeyCompare_antisym]
    ring
  · intro h
    unfold compareServers
    rw [h, skeyCompare_self]
    ring

/-- Witness for the amended C6: two distinct servers with equal player
counts compare to 0 under the `players` field. -/
theorem compareServers_sign_witness :
    compareServers true SortField.players SortDirection.desc srvFive srvFiveB = 0 :=
  (compareServers_sign true SortField.players SortDirection.desc srvFive srvFiveB).2 rfl

/-- C4: sorting is stable — for every raw list, filter configuration, sort
field and direction, the records of the derived list carrying any fixed sort
key `v` are exactly the matching records of the raw list with that key, in
the raw list's order; so records with equal sort keys keep their relative
order from the raw list. -/
theorem processedServers_stable (servers : List Server) (f : Filters)
    (sf : SortField) (sd : SortDirection) (v : SKey) :
    (processedServers servers f sf sd).filter
        (fun s => decide (sortValue f.stripSpecialChars sf s = v)) =
      servers.filter
        (fun s => matchesFilter f s && decide (sortValue f.stripSpecialChars sf s = v)) := by
  have g0 : ∀ u : SKey, dirMult sd * skeyCompare u u = 0 := by
    intro u
    rw [skeyCompare_self]
    ring
  have gneg : ∀ u w : SKey, dirMult sd * skeyCompare w u = -(dirMult sd * skeyCompare u w) := by
    intro u w
    rw [skeyCompare_antisym]
    ring
  have gtrans : ∀ u w z : SKey, dirMult sd * skeyCompare u w < 0 →
      dirMult sd * skeyCompare w z < 0 → dirMult sd * skeyCompare u z < 0 := by
    intro u w z h1 h2
    cases sd with
    | asc =>
      simp only [dirMult, one_mul] at h1 h2 ⊢
      exact skeyCompare_lt_trans u w z h1 h2
    | desc =>
      simp only [dirMult, neg_mul, one_mul, neg_neg] at h1 h2 ⊢
      have h1' : skeyCompare w u < 0 := by
        have := skeyCompare_antisym u w
        omega
      have h2' : skeyCompare z w < 0 := by
        have := skeyCompare_antisym w z
        omega
      have h3 := skeyCompare_lt_trans z w u h2' h1'
      have := skeyCompare_antisym u z
      omega
  have key := jsSort_filter_key (sortValue f.stripSpecialChars sf)
      (fun u w => dirMult sd * skeyCompare u w) g0 gneg gtrans v
      (servers.filter (matchesFilter f))
  unfold processedServers
  rw [show compareServers f.stripSpecialChars sf sd =
        (fun a b => dirMult sd * skeyCompare (sortValue f.stripSpecialChars sf a)
          (sortValue f.stripSpecialChars sf b)) from rfl]
  rw [key, List.filter_filter]
  exact List.filter_congr (fun x _ => by rw [Bool.and_comm])

/-- C10: the player list stored after a successful detail lookup is the
fetched array sorted by `connection_time` descending — it is a permutation
of the fetched array in which every player's connection time is at least
that of each later player. -/
theorem fetchDetailsPlayers_sorted (data : List Player) :
    (fetchDetailsPlayers data).Pairwise
        (fun a b => b.connection_time ≤ a.connection_time) ∧
    (fetchDetailsPlayers data).Perm data := by
  constructor
  · have hneg : ∀ a b : Player, comparePlayersByTime b a = -(comparePlayersByTime a b) := by
      intro a b
      unfold comparePlayersByTime
      ring
    have htrans : ∀ a b d : Player, comparePlayersByTime a b < 0 →
        comparePlayersByTime b d < 0 → comparePlayersByTime a d < 0 := by
      intro a b d h1 h2
      unfold comparePlayersByTime at h1 h2 ⊢
      omega
    have h := jsSort_pairwise comparePlayersByTime hneg htrans data
    refine h.imp ?_
    intro a b hab
    unfold comparePlayersByTime at hab
    omega
  · exact jsSort_perm comparePlayersByTime data
